import Mathlib

/-!
Verification development for the sign-language-translator repository.

Part 1 embeds the hold-to-capture state machine and the top-prediction
selector of the detection page (source: the React detection component):
constants MIN_CONFIDENCE / LETTER_HOLD_DURATION / RECAPTURE_COOLDOWN,
functions updateLetterHold, resetLetterHold, captureLetter,
getTopPrediction, and the per-frame dispatch of detectFrame.

Part 2 embeds the feature-engineering module (featureEngineering.ts):
calculateDistance, calculateAngle, crossProduct, normalize,
extractEngineerFeatures and extractNormalizedLandmarks, over the reals.

Scores, probabilities and timestamps (milliseconds) are rationals;
geometric coordinates are reals, with Math.sqrt as Real.sqrt and
Math.acos as Real.arccos.
-/

namespace SLT

/-! ### Capture state machine (detection page) -/

/-- Source constant MIN_CONFIDENCE = 0.5. -/
def MIN_CONFIDENCE : ℚ := 1/2

/-- Source constant LETTER_HOLD_DURATION = 3000 ms. -/
def LETTER_HOLD_DURATION : ℚ := 3000

/-- Source constant RECAPTURE_COOLDOWN = 500 ms. -/
def RECAPTURE_COOLDOWN : ℚ := 500

/-- The mutable refs and state of the detection component that the
hold-to-capture logic reads and writes: currentHoldLetterRef,
holdStartTimeRef, holdProgress state, lastCapturedLetterRef,
lastCaptureTimeRef, capturedSentence state. -/
structure HoldState where
  currentHoldLetter : String
  holdStartTime : ℚ
  holdProgress : ℚ
  lastCapturedLetter : String
  lastCaptureTime : ℚ
  capturedSentence : String
deriving DecidableEq

/-- The initial component state: empty refs, zero times. -/
def initState : HoldState :=
  { currentHoldLetter := ""
    holdStartTime := 0
    holdProgress := 0
    lastCapturedLetter := ""
    lastCaptureTime := 0
    capturedSentence := "" }

/-- Source captureLetter: append the letter to the captured sentence. -/
def captureLetter (letter : String) (s : HoldState) : HoldState :=
  { s with capturedSentence := s.capturedSentence ++ letter }

/-- Source updateLetterHold, with Date.now() passed explicitly as now.
A new letter restarts the hold; a held letter accumulates duration and,
once LETTER_HOLD_DURATION is reached and the recapture condition allows,
commits through captureLetter and resets the hold refs. -/
def updateLetterHold (letter : String) (now : ℚ) (s : HoldState) : HoldState :=
  if letter ≠ s.currentHoldLetter then
    { s with currentHoldLetter := letter, holdStartTime := now, holdProgress := 0 }
  else
    let holdDuration := now - s.holdStartTime
    let progress := min (holdDuration / LETTER_HOLD_DURATION * 100) 100
    if holdDuration ≥ LETTER_HOLD_DURATION then
      if letter ≠ s.lastCapturedLetter ∨ now - s.lastCaptureTime ≥ RECAPTURE_COOLDOWN then
        { captureLetter letter s with
            lastCapturedLetter := letter
            lastCaptureTime := now
            currentHoldLetter := ""
            holdStartTime := 0
            holdProgress := 0 }
      else
        { s with holdProgress := progress }
    else
      { s with holdProgress := progress }

/-- Source resetLetterHold: clear the hold refs and the progress. -/
def resetLetterHold (s : HoldState) : HoldState :=
  { s with currentHoldLetter := "", holdStartTime := 0, holdProgress := 0 }

/-- The index/score scan loop of getTopPrediction: fold over the
remaining probabilities, replacing the best pair on strict improvement. -/
def topScan : List ℚ → ℕ → ℕ × ℚ → ℕ × ℚ
  | [], _, best => best
  | p :: rest, i, best => topScan rest (i + 1) (if p > best.2 then (i, p) else best)

/-- The (bestIndex, bestScore) pair computed by getTopPrediction:
bestIndex starts at 0, bestScore at probabilities[0] ?? 0, and the loop
runs from index 1 upward. -/
def getTopBest (probs : List ℚ) : ℕ × ℚ :=
  match probs with
  | [] => (0, 0)
  | p :: rest => topScan rest 1 (0, p)

/-- Source getTopPrediction: the label is labels[bestIndex], falling back
to the configured vocabulary at the same index and then to "?". -/
def getTopPrediction (labels vocab : List String) (probs : List ℚ) : String × ℚ :=
  let best := getTopBest probs
  (labels.getD best.1 (vocab.getD best.1 "?"), best.2)

/-- Observable outcome of one detectFrame tick past hand estimation:
noHands shows an em dash with confidence 0 and leaves the hold state
untouched; skippedEmpty is the silent early return on an empty
probability array; shown is a displayed (prediction, confidence) pair. -/
inductive FrameResult where
  | noHands : FrameResult
  | skippedEmpty : FrameResult
  | shown (prediction : String) (confidence : ℚ) : FrameResult
deriving DecidableEq

/-- The per-tick dispatch of detectFrame after hand estimation: no hands
shows a dash and returns; an empty probability array re-schedules and
returns; otherwise the top prediction is gated on MIN_CONFIDENCE, either
feeding updateLetterHold or showing a dash and resetting the hold. -/
def detectStep (labels vocab : List String) (hands : Option (List ℚ)) (now : ℚ)
    (s : HoldState) : FrameResult × HoldState :=
  match hands with
  | none => (.noHands, s)
  | some probs =>
    if probs.length = 0 then
      (.skippedEmpty, s)
    else
      let lp := getTopPrediction labels vocab probs
      if lp.2 ≥ MIN_CONFIDENCE then
        (.shown lp.1 lp.2, updateLetterHold lp.1 now s)
      else
        (.shown "—" lp.2, resetLetterHold s)

/-- Feed one letter to updateLetterHold at each time of the list in order. -/
def runHold (letter : String) (times : List ℚ) (s : HoldState) : HoldState :=
  times.foldl (fun st t => updateLetterHold letter t st) s

/-- Run detectFrame ticks with detected hands over a list of
(probabilities, timestamp) frames. -/
def runFrames (labels vocab : List String) (frames : List (List ℚ × ℚ))
    (s : HoldState) : HoldState :=
  frames.foldl (fun st f => (detectStep labels vocab (some f.1) f.2 st).2) s

/-! ### Feature engineering (featureEngineering.ts) -/

/-- Source HandKeypoint: x, y and an optional z. -/
structure HandKeypoint where
  x : ℝ
  y : ℝ
  z : Option ℝ

/-- A landmark in [x, y, z] form, as the number[] triples of the source. -/
abbrev Landmark : Type := ℝ × ℝ × ℝ

/-- Source FINGERTIP_IDS: thumb, index, middle, ring, pinky tips. -/
def FINGERTIP_IDS : List (Fin 21) := [4, 8, 12, 16, 20]

/-- Source DISTANCE_PAIRS: the 26 index pairs, duplicates included. -/
def DISTANCE_PAIRS : List (Fin 21 × Fin 21) :=
  [(4, 0), (8, 0), (12, 0), (16, 0), (20, 0),
   (4, 8), (8, 12), (12, 16), (16, 20),
   (4, 8), (4, 12), (4, 16), (4, 20),
   (4, 9), (8, 9), (12, 9), (16, 9), (20, 9),
   (5, 9), (9, 13), (13, 17),
   (4, 1), (8, 5), (12, 9), (16, 13), (20, 17)]

/-- Source FINGER_JOINTS: [base, pip, dip, tip] per finger. -/
def FINGER_JOINTS : List (Fin 21 × Fin 21 × Fin 21 × Fin 21) :=
  [(1, 2, 3, 4), (5, 6, 7, 8), (9, 10, 11, 12), (13, 14, 15, 16), (17, 18, 19, 20)]

/-- Componentwise difference of two landmark triples, as the source
forms vectors entry by entry. -/
noncomputable def vsub (p q : Landmark) : Landmark :=
  (p.1 - q.1, p.2.1 - q.2.1, p.2.2 - q.2.2)

/-- Dot product as written in the source. -/
noncomputable def vdot (v w : Landmark) : ℝ :=
  v.1 * w.1 + v.2.1 * w.2.1 + v.2.2 * w.2.2

/-- Magnitude as written in the source: sqrt of the sum of squares. -/
noncomputable def vmag (v : Landmark) : ℝ :=
  Real.sqrt (v.1 * v.1 + v.2.1 * v.2.1 + v.2.2 * v.2.2)

/-- Source calculateDistance: Euclidean distance of two triples. -/
noncomputable def calculateDistance (p1 p2 : Landmark) : ℝ :=
  Real.sqrt ((p1.1 - p2.1) * (p1.1 - p2.1) + (p1.2.1 - p2.2.1) * (p1.2.1 - p2.2.1) +
    (p1.2.2 - p2.2.2) * (p1.2.2 - p2.2.2))

/-- Source calculateAngle: angle at p2 formed by p1-p2-p3 in degrees,
with the cosine clamped to [-1, 1] and the 1e-8 guard on the
denominator; Math.acos is Real.arccos. -/
noncomputable def calculateAngle (p1 p2 p3 : Landmark) : ℝ :=
  let v1 := vsub p1 p2
  let v2 := vsub p3 p2
  let cosAngle := max (-1) (min 1 (vdot v1 v2 / (vmag v1 * vmag v2 + 1e-8)))
  Real.arccos cosAngle * (180 / Real.pi)

/-- Source crossProduct of two 3D vectors. -/
noncomputable def crossProduct (v1 v2 : Landmark) : Landmark :=
  (v1.2.1 * v2.2.2 - v1.2.2 * v2.2.1,
   v1.2.2 * v2.1 - v1.1 * v2.2.2,
   v1.1 * v2.2.1 - v1.2.1 * v2.1)

/-- Source normalize: divide by magnitude plus the 1e-8 guard. -/
noncomputable def normalize (v : Landmark) : Landmark :=
  let mag := Real.sqrt (v.1 * v.1 + v.2.1 * v.2.1 + v.2.2 * v.2.2) + 1e-8
  (v.1 / mag, v.2.1 / mag, v.2.2 / mag)

/-- The keypoint-to-triple conversion at the top of
extractEngineerFeatures: divide x and y by the image dimensions when
those are given (a JavaScript-truthy, hence nonzero, width or height)
and default a missing z to 0. -/
noncomputable def toLandmark (imageWidth imageHeight : Option ℝ) (kp : HandKeypoint) :
    Landmark :=
  ((match imageWidth with
    | some w => if w = 0 then kp.x else kp.x / w
    | none => kp.x),
   (match imageHeight with
    | some h => if h = 0 then kp.y else kp.y / h
    | none => kp.y),
   kp.z.getD 0)

/-- In-range list indexing of the 21 keypoints, as the source indexes
its arrays; out-of-range (never reached on 21-element input) defaults. -/
def keypointAt (kps : List HandKeypoint) (i : Fin 21) : HandKeypoint :=
  kps.getD i ⟨0, 0, none⟩

/-- The wrist-centered triples of extractEngineerFeatures:
landmark minus landmarks[0]. -/
noncomputable def centeredOf (g : Fin 21 → Landmark) : Fin 21 → Landmark :=
  fun i => vsub (g i) (g 0)

/-- The hand size of extractEngineerFeatures: distance from the wrist
(landmark 0) to the middle-finger MCP (landmark 9). -/
noncomputable def handSizeOf (g : Fin 21 → Landmark) : ℝ :=
  calculateDistance (g 0) (g 9)

/-- The normalized triples: centered coordinates divided by hand size
when that is positive, otherwise the centered coordinates unchanged. -/
noncomputable def normalizedOf (g : Fin 21 → Landmark) : Fin 21 → Landmark :=
  if handSizeOf g > 0 then
    fun i => ((centeredOf g i).1 / handSizeOf g,
              (centeredOf g i).2.1 / handSizeOf g,
              (centeredOf g i).2.2 / handSizeOf g)
  else
    centeredOf g

/-- The 63-entry flattening of the normalized triples, in x, y, z order
per landmark, as the source fills normalizedLandmarks[i*3 + k]. -/
noncomputable def normalizedLandmarksOf (g : Fin 21 → Landmark) : List ℝ :=
  (List.ofFn fun i : Fin 21 =>
    [(normalizedOf g i).1, (normalizedOf g i).2.1, (normalizedOf g i).2.2]).flatten

/-- The 26 distance features over the normalized triples. -/
noncomputable def distancesOf (g : Fin 21 → Landmark) : List ℝ :=
  DISTANCE_PAIRS.map fun p => calculateDistance (normalizedOf g p.1) (normalizedOf g p.2)

/-- The 19 raw angles in degrees: per finger the MCP, PIP and DIP
angles, then the four spreads between adjacent fingertips. -/
noncomputable def anglesListOf (g : Fin 21 → Landmark) : List ℝ :=
  ((FINGER_JOINTS.map fun q =>
      [calculateAngle (g 0) (g q.1) (g q.2.1),
       calculateAngle (g q.1) (g q.2.1) (g q.2.2.1),
       calculateAngle (g q.2.1) (g q.2.2.1) (g q.2.2.2)]).flatten)
  ++ ((FINGERTIP_IDS.zip FINGERTIP_IDS.tail).map fun p =>
        calculateAngle (g p.1) (g 0) (g p.2))

/-- The 19 angle features: raw degrees divided by 180. -/
noncomputable def anglesOf (g : Fin 21 → Landmark) : List ℝ :=
  (anglesListOf g).map fun a => a / 180

/-- The 10 fingertip-position features: normalized y then z per tip. -/
noncomputable def fingertipPositionsOf (g : Fin 21 → Landmark) : List ℝ :=
  (FINGERTIP_IDS.map fun t => [(normalizedOf g t).2.1, (normalizedOf g t).2.2]).flatten

/-- The 3 palm-orientation features: the normalized cross product of
wrist-to-index-MCP and wrist-to-pinky-MCP. -/
noncomputable def orientationOf (g : Fin 21 → Landmark) : List ℝ :=
  let n := normalize (crossProduct (vsub (g 5) (g 0)) (vsub (g 17) (g 0)))
  [n.1, n.2.1, n.2.2]

/-- Source EngineerFeatures: the five feature arrays and their
121-entry concatenation. -/
structure EngineerFeatures where
  normalizedLandmarks : List ℝ
  distances : List ℝ
  angles : List ℝ
  fingertipPositions : List ℝ
  orientation : List ℝ
  combined : List ℝ

/-- The body of extractEngineerFeatures on 21 landmark triples; the
combined array is assembled by consecutive set calls at offsets
0, 63, 89, 108, 118. -/
noncomputable def extractEngineerFeaturesCore (g : Fin 21 → Landmark) : EngineerFeatures :=
  { normalizedLandmarks := normalizedLandmarksOf g
    distances := distancesOf g
    angles := anglesOf g
    fingertipPositions := fingertipPositionsOf g
    orientation := orientationOf g
    combined := normalizedLandmarksOf g ++ (distancesOf g ++ (anglesOf g ++
      (fingertipPositionsOf g ++ orientationOf g))) }

/-- Source extractEngineerFeatures: null (none) unless exactly 21
keypoints; otherwise the features over the converted triples. -/
noncomputable def extractEngineerFeatures (kps : List HandKeypoint)
    (imageWidth imageHeight : Option ℝ) : Option EngineerFeatures :=
  if kps.length = 21 then
    some (extractEngineerFeaturesCore fun i => toLandmark imageWidth imageHeight (keypointAt kps i))
  else
    none

/-- Source extractNormalizedLandmarks: null (none) unless exactly 21
keypoints; otherwise the 63 wrist-centered coordinates, with no
hand-size scaling and no image-dimension conversion. -/
noncomputable def extractNormalizedLandmarks (kps : List HandKeypoint) :
    Option (List ℝ) :=
  if kps.length = 21 then
    some ((List.ofFn fun i : Fin 21 =>
      [(keypointAt kps i).x - (keypointAt kps 0).x,
       (keypointAt kps i).y - (keypointAt kps 0).y,
       (keypointAt kps i).z.getD 0 - (keypointAt kps 0).z.getD 0]).flatten)
  else
    none

/-- The 63-entry flattening of the wrist-centered (unscaled) triples,
the intermediate value of extractEngineerFeatures before hand-size
scaling. -/
noncomputable def wristCenteredListOf (g : Fin 21 → Landmark) : List ℝ :=
  (List.ofFn fun i : Fin 21 =>
    [(centeredOf g i).1, (centeredOf g i).2.1, (centeredOf g i).2.2]).flatten

/-- An all-zero keypoint. -/
noncomputable def kp0 : HandKeypoint := ⟨0, 0, none⟩

/-- 21 all-zero keypoints: a degenerate hand with handSize 0. -/
noncomputable def kps0 : List HandKeypoint := List.replicate 21 kp0

/-- 21 keypoints, all zero except keypoint 9 at x = 2: a hand whose
hand size is 2, so the engineered landmark segment is scaled by 1/2. -/
noncomputable def kps9 : List HandKeypoint :=
  [kp0, kp0, kp0, kp0, kp0, kp0, kp0, kp0, kp0, ⟨2, 0, none⟩,
   kp0, kp0, kp0, kp0, kp0, kp0, kp0, kp0, kp0, kp0, kp0]

/-- The landmark triples of kps0 (all the origin). -/
noncomputable def g0 : Fin 21 → Landmark :=
  fun i => toLandmark none none (keypointAt kps0 i)

/-- The landmark triples of kps9 (the origin except (2,0,0) at 9). -/
noncomputable def g9 : Fin 21 → Landmark :=
  fun i => toLandmark none none (keypointAt kps9 i)

/-- A state in the middle of holding the letter A with 50% progress. -/
def holdMid : HoldState :=
  { currentHoldLetter := "A"
    holdStartTime := 0
    holdProgress := 50
    lastCapturedLetter := ""
    lastCaptureTime := 0
    capturedSentence := "" }

/-! ### Lemmas: the three branches of updateLetterHold -/

theorem updateLetterHold_new (letter : String) (now : ℚ) (s : HoldState)
    (h : letter ≠ s.currentHoldLetter) :
    updateLetterHold letter now s =
      { s with currentHoldLetter := letter, holdStartTime := now, holdProgress := 0 } := by
  simp [updateLetterHold, h]

theorem updateLetterHold_held (letter : String) (now : ℚ) (s : HoldState)
    (hcur : s.currentHoldLetter = letter)
    (hshort : now - s.holdStartTime < LETTER_HOLD_DURATION) :
    updateLetterHold letter now s =
      { s with holdProgress := min ((now - s.holdStartTime) / LETTER_HOLD_DURATION * 100) 100 } := by
  simp [updateLetterHold, hcur, not_le.mpr hshort]

theorem updateLetterHold_commit (letter : String) (now : ℚ) (s : HoldState)
    (hcur : s.currentHoldLetter = letter)
    (hlong : LETTER_HOLD_DURATION ≤ now - s.holdStartTime)
    (hcan : letter ≠ s.lastCapturedLetter ∨ RECAPTURE_COOLDOWN ≤ now - s.lastCaptureTime) :
    updateLetterHold letter now s =
      { currentHoldLetter := ""
        holdStartTime := 0
        holdProgress := 0
        lastCapturedLetter := letter
        lastCaptureTime := now
        capturedSentence := s.capturedSentence ++ letter } := by
  simp [updateLetterHold, captureLetter, hcur, hlong, hcan]

theorem runHold_held (letter : String) (t0 : ℚ) (early : List ℚ) (s : HoldState)
    (hcur : s.currentHoldLetter = letter)
    (hstart : s.holdStartTime = t0)
    (he : ∀ t ∈ early, t - t0 < LETTER_HOLD_DURATION) :
    ∃ pr, runHold letter early s = { s with holdProgress := pr } := by
  induction early generalizing s with
  | nil => exact ⟨s.holdProgress, rfl⟩
  | cons t ts ih =>
    have hstep := updateLetterHold_held letter t s hcur
      (by rw [hstart]; exact he t (List.mem_cons_self t ts))
    obtain ⟨pr, hpr⟩ :=
      ih { s with holdProgress := min ((t - s.holdStartTime) / LETTER_HOLD_DURATION * 100) 100 }
        hcur hstart (fun u hu => he u (List.mem_cons_of_mem t hu))
    refine ⟨pr, ?_⟩
    show runHold letter ts (updateLetterHold letter t s) = _
    rw [hstep, hpr]

/-! ### Claim C4 -/

/-- C4: feeding one label to the capture machine continuously (ticks at
t0, then strictly within the hold window, then a tick tc at least
3000 ms after t0) commits the label exactly once: no commit before tc,
one append at tc, and the machine records (label, tc) as the last
capture and resets to Idle with hold progress 0, so the immediately
following tick of the same continuous gesture cannot commit again. -/
theorem hold_commits_exactly_once
    (letter : String) (s : HoldState) (t0 tc tnext : ℚ) (early : List ℚ)
    (hletter : letter ≠ "")
    (hne : letter ≠ s.currentHoldLetter)
    (hlast : s.lastCaptureTime ≤ t0)
    (hearly : ∀ t ∈ early, t - t0 < LETTER_HOLD_DURATION)
    (hc : t0 + LETTER_HOLD_DURATION ≤ tc) :
    (runHold letter (t0 :: early) s).capturedSentence = s.capturedSentence ∧
    updateLetterHold letter tc (runHold letter (t0 :: early) s) =
      { currentHoldLetter := ""
        holdStartTime := 0
        holdProgress := 0
        lastCapturedLetter := letter
        lastCaptureTime := tc
        capturedSentence := s.capturedSentence ++ letter } ∧
    (updateLetterHold letter tnext (updateLetterHold letter tc
        (runHold letter (t0 :: early) s))).capturedSentence
      = s.capturedSentence ++ letter := by
  have h0 : runHold letter (t0 :: early) s
      = runHold letter early
          { s with currentHoldLetter := letter, holdStartTime := t0, holdProgress := 0 } := by
    show runHold letter early (updateLetterHold letter t0 s) = _
    rw [updateLetterHold_new letter t0 s hne]
  obtain ⟨pr, hpr⟩ := runHold_held letter t0 early
    { s with currentHoldLetter := letter, holdStartTime := t0, holdProgress := 0 }
    rfl rfl hearly
  have hrun : runHold letter (t0 :: early) s
      = { s with currentHoldLetter := letter, holdStartTime := t0, holdProgress := pr } := by
    rw [h0, hpr]
  have hlong : LETTER_HOLD_DURATION ≤ tc - t0 := by linarith
  have hcool : RECAPTURE_COOLDOWN ≤ tc - s.lastCaptureTime := by
    have h1 : LETTER_HOLD_DURATION = 3000 := rfl
    have h2 : RECAPTURE_COOLDOWN = 500 := rfl
    rw [h1] at hc
    rw [h2]
    linarith
  have hcommit := updateLetterHold_commit letter tc
    { s with currentHoldLetter := letter, holdStartTime := t0, holdProgress := pr }
    rfl hlong (Or.inr hcool)
  refine ⟨by rw [hrun], ?_, ?_⟩
  · rw [hrun, hcommit]
  · rw [hrun, hcommit, updateLetterHold_new letter tnext _ hletter]

/-- Witness for C4 at letter A, ticks 0/1000/2000 then 3000 then 3016
from the initial state. -/
theorem hold_commits_exactly_once_witness :
    (runHold "A" [0, 1000, 2000] initState).capturedSentence = "" ∧
    updateLetterHold "A" 3000 (runHold "A" [0, 1000, 2000] initState) =
      { currentHoldLetter := ""
        holdStartTime := 0
        holdProgress := 0
        lastCapturedLetter := "A"
        lastCaptureTime := 3000
        capturedSentence := "A" } ∧
    (updateLetterHold "A" 3016 (updateLetterHold "A" 3000
        (runHold "A" [0, 1000, 2000] initState))).capturedSentence = "A" := by
  have h := hold_commits_exactly_once "A" initState 0 3000 3016 [1000, 2000]
    (by decide) (by decide) (by norm_num [initState])
    (by intro t ht; fin_cases ht <;> norm_num [LETTER_HOLD_DURATION])
    (by norm_num [LETTER_HOLD_DURATION])
  simpa [initState, show ("" : String) ++ "A" = "A" from rfl] using h

/-! ### Claim C2 -/

/-- C2 counterexample: from the initial state, holding L at ticks 0,
1500, 3000 commits L at time 3000; re-presenting L at 3100 ms (only
100 ms after the commit, well inside the 500 ms cooldown) and holding
through 4600 and 6100 ms commits L a second time, so the sentence is
LL — the claimed suppression of the second commit does not happen. -/
theorem recapture_within_cooldown_still_commits :
    (runHold "L" [0, 1500, 3000] initState).capturedSentence = "L" ∧
    (runHold "L" [0, 1500, 3000] initState).lastCaptureTime = 3000 ∧
    (3100 : ℚ) - 3000 < RECAPTURE_COOLDOWN ∧
    (runHold "L" [0, 1500, 3000, 3100, 4600, 6100] initState).capturedSentence = "LL" := by
  refine ⟨?_, ?_, by norm_num [RECAPTURE_COOLDOWN], ?_⟩ <;>
    norm_num [runHold, updateLetterHold, captureLetter, initState,
      LETTER_HOLD_DURATION, RECAPTURE_COOLDOWN,
      show ("L" : String) ≠ "" by decide, show ("L" : String) ++ "L" = "LL" from rfl]

/-- C2 (amended): once the held label completes a full hold (now is at
least holdStartTime + 3000 ms) and the hold started at or after the
last commit — as always happens when the label is re-presented after a
commit, however small the gap — the commit fires: by completion at
least 3000 ms ≥ 500 ms has passed since the prior commit, so the
cooldown test is satisfied and cannot suppress it. -/
theorem full_hold_after_commit_commits
    (letter : String) (now : ℚ) (s : HoldState)
    (hcur : s.currentHoldLetter = letter)
    (hstart : s.lastCaptureTime ≤ s.holdStartTime)
    (hlong : s.holdStartTime + LETTER_HOLD_DURATION ≤ now) :
    RECAPTURE_COOLDOWN ≤ now - s.lastCaptureTime ∧
    (updateLetterHold letter now s).capturedSentence = s.capturedSentence ++ letter := by
  have hcool : RECAPTURE_COOLDOWN ≤ now - s.lastCaptureTime := by
    have h1 : LETTER_HOLD_DURATION = 3000 := rfl
    have h2 : RECAPTURE_COOLDOWN = 500 := rfl
    rw [h1] at hlong
    rw [h2]
    linarith
  refine ⟨hcool, ?_⟩
  rw [updateLetterHold_commit letter now s hcur (by linarith) (Or.inr hcool)]

/-- Witness for the amended C2: L recommitted at 6100 ms after a hold
restarted at 3100 ms, 100 ms past a commit recorded at 3000 ms. -/
theorem full_hold_after_commit_commits_witness :
    RECAPTURE_COOLDOWN ≤ (6100 : ℚ) - 3000 ∧
    (updateLetterHold "L" 6100
      { currentHoldLetter := "L"
        holdStartTime := 3100
        holdProgress := 0
        lastCapturedLetter := "L"
        lastCaptureTime := 3000
        capturedSentence := "L" }).capturedSentence = "L" ++ "L" :=
  full_hold_after_commit_commits "L" 6100
    { currentHoldLetter := "L"
      holdStartTime := 3100
      holdProgress := 0
      lastCapturedLetter := "L"
      lastCaptureTime := 3000
      capturedSentence := "L" }
    rfl (by norm_num) (by norm_num [LETTER_HOLD_DURATION])

/-! ### Claim C3 -/

/-- C3 counterexample: handing detectFrame an empty probability array
does not fail: the tick is silently skipped (re-scheduled) with no
prediction shown and the capture state unchanged — there is no loud
contract-violation path in the code. -/
theorem empty_probabilities_silently_skipped :
    detectStep ["A"] ["A"] (some []) 0 initState = (FrameResult.skippedEmpty, initState) := rfl

/-- C3 (amended): an empty probability array is silently skipped: for
every label list, vocabulary, time and state, the tick returns the
skippedEmpty outcome and leaves the capture state untouched; it is
neither coerced into a prediction nor surfaced as an error. -/
theorem empty_probabilities_skip (labels vocab : List String) (now : ℚ) (s : HoldState) :
    detectStep labels vocab (some []) now s = (FrameResult.skippedEmpty, s) := rfl

/-! ### Claim C5 -/

/-- Loop invariant of the getTopPrediction scan: seen is the prefix
already processed and b the best pair over it (value at its index,
upper bound, strictly greater than every earlier entry); the scan over
the rest preserves all four facts for the whole list. -/
theorem topScan_inv (rest : List ℚ) (seen : List ℚ) (b : ℕ × ℚ)
    (hlt : b.1 < seen.length)
    (hval : seen.getD b.1 0 = b.2)
    (hub : ∀ x ∈ seen, x ≤ b.2)
    (hfirst : ∀ j < b.1, seen.getD j 0 < b.2) :
    (topScan rest seen.length b).1 < (seen ++ rest).length ∧
    (seen ++ rest).getD (topScan rest seen.length b).1 0 = (topScan rest seen.length b).2 ∧
    (∀ x ∈ seen ++ rest, x ≤ (topScan rest seen.length b).2) ∧
    (∀ j < (topScan rest seen.length b).1,
      (seen ++ rest).getD j 0 < (topScan rest seen.length b).2) := by
  induction rest generalizing seen b with
  | nil =>
    rw [List.append_nil]
    exact ⟨hlt, hval, hub, hfirst⟩
  | cons p ps ih =>
    have hsplit : seen ++ p :: ps = (seen ++ [p]) ++ ps := by simp
    have hlen1 : (seen ++ [p]).length = seen.length + 1 := by simp
    have hstep : topScan (p :: ps) seen.length b
        = topScan ps (seen.length + 1) (if p > b.2 then (seen.length, p) else b) := rfl
    by_cases hp : p > b.2
    · have hacc : (if p > b.2 then (seen.length, p) else b) = (seen.length, p) := if_pos hp
      have h1 : (seen ++ [p]).getD seen.length 0 = p := by
        rw [List.getD_append_right _ _ _ _ le_rfl]
        simp
      have hub1 : ∀ x ∈ seen ++ [p], x ≤ p := by
        intro x hx
        rcases List.mem_append.mp hx with hx | hx
        · exact le_of_lt (lt_of_le_of_lt (hub x hx) hp)
        · simp at hx
          exact le_of_eq hx
      have hfirst1 : ∀ j < seen.length, (seen ++ [p]).getD j 0 < p := by
        intro j hj
        rw [List.getD_append _ _ _ _ hj]
        have hmem : seen.getD j 0 ∈ seen := by
          rw [List.getD_eq_getElem seen 0 hj]
          exact List.getElem_mem hj
        exact lt_of_le_of_lt (hub _ hmem) hp
      have := ih (seen ++ [p]) (seen.length, p)
        (by simp) h1 hub1 (by simpa using hfirst1)
      rw [hlen1] at this
      rw [hstep, hacc, hsplit]
      exact this
    · have hacc : (if p > b.2 then (seen.length, p) else b) = b := if_neg hp
      have hlt1 : b.1 < (seen ++ [p]).length := by
        rw [hlen1]; omega
      have h1 : (seen ++ [p]).getD b.1 0 = b.2 := by
        rw [List.getD_append _ _ _ _ hlt, hval]
      have hub1 : ∀ x ∈ seen ++ [p], x ≤ b.2 := by
        intro x hx
        rcases List.mem_append.mp hx with hx | hx
        · exact hub x hx
        · simp at hx
          subst hx
          exact not_lt.mp hp
      have hfirst1 : ∀ j < b.1, (seen ++ [p]).getD j 0 < b.2 := by
        intro j hj
        rw [List.getD_append _ _ _ _ (lt_trans hj hlt)]
        exact hfirst j hj
      have := ih (seen ++ [p]) b hlt1 h1 hub1 hfirst1
      rw [hlen1] at this
      rw [hstep, hacc, hsplit]
      exact this

/-- C5: on a nonempty probability list the selector returns the maximum
value as the score, taken at a valid index whose entry equals the
score, with every entry at a strictly smaller index strictly below it
(first-max wins via strict greater-than); the label is read from the
label list at that index with vocabulary and "?" fallbacks; and on
[0.4, 0.4, 0.2] (as 2/5, 2/5, 1/5) the selected index is 0. -/
theorem getTopPrediction_first_max (labels vocab : List String) (probs : List ℚ)
    (h : probs ≠ []) :
    (getTopBest probs).1 < probs.length ∧
    probs.getD (getTopBest probs).1 0 = (getTopBest probs).2 ∧
    (∀ x ∈ probs, x ≤ (getTopBest probs).2) ∧
    (∀ j < (getTopBest probs).1, probs.getD j 0 < (getTopBest probs).2) ∧
    getTopPrediction labels vocab probs =
      (labels.getD (getTopBest probs).1 (vocab.getD (getTopBest probs).1 "?"),
       (getTopBest probs).2) ∧
    getTopBest [2/5, 2/5, 1/5] = (0, 2/5) := by
  obtain ⟨p, rest, rfl⟩ := List.exists_cons_of_ne_nil h
  have inv := topScan_inv rest [p] (0, p)
    (by simp) (by simp) (by simp)
    (by intro j hj; exact absurd hj (Nat.not_lt_zero j))
  have hbest : getTopBest (p :: rest) = topScan rest 1 (0, p) := rfl
  have hl : ([p] : List ℚ).length = 1 := rfl
  rw [hl] at inv
  have happ : ([p] : List ℚ) ++ rest = p :: rest := rfl
  rw [happ] at inv
  refine ⟨by rw [hbest]; exact inv.1, by rw [hbest]; exact inv.2.1,
    by rw [hbest]; exact inv.2.2.1, by rw [hbest]; exact inv.2.2.2, rfl, ?_⟩
  norm_num [getTopBest, topScan]

/-- Witness for C5 on probabilities [2/5, 2/5, 1/5] with labels
A, B, C: the selected index is 0 with score 2/5 and label A. -/
theorem getTopPrediction_first_max_witness :
    getTopBest [2/5, 2/5, 1/5] = (0, 2/5) ∧
    ([2/5, 2/5, 1/5] : List ℚ).getD (getTopBest [2/5, 2/5, 1/5]).1 0
      = (getTopBest [2/5, 2/5, 1/5]).2 ∧
    getTopPrediction ["A", "B", "C"] [] [2/5, 2/5, 1/5] =
      (["A", "B", "C"].getD (getTopBest [2/5, 2/5, 1/5]).1
        (([] : List String).getD (getTopBest [2/5, 2/5, 1/5]).1 "?"),
       (getTopBest [2/5, 2/5, 1/5]).2) := by
  have h := getTopPrediction_first_max ["A", "B", "C"] [] [2/5, 2/5, 1/5] (by simp)
  exact ⟨h.2.2.2.2.2, h.2.1, h.2.2.2.2.1⟩

/-! ### Claim C9 -/

/-- One low-confidence tick: a nonempty probability list whose top
score is below MIN_CONFIDENCE shows a dash and resets the hold. -/
theorem detectStep_low (labels vocab : List String) (probs : List ℚ) (now : ℚ)
    (s : HoldState) (hne : probs ≠ [])
    (hlow : (getTopPrediction labels vocab probs).2 < MIN_CONFIDENCE) :
    detectStep labels vocab (some probs) now s =
      (FrameResult.shown "—" (getTopPrediction labels vocab probs).2, resetLetterHold s) := by
  have hlen : ¬probs.length = 0 := by
    simpa [List.length_eq_zero] using hne
  simp [detectStep, hlen, not_le.mpr hlow]

/-- C9 counterexample: a no-hands frame does not drive the machine to
Idle: from a state holding A at 50% progress, the tick returns noHands
and leaves the state — including the 50% hold progress — unchanged,
contradicting the claim that no hand detected resets progress to 0. -/
theorem no_hands_does_not_reset :
    detectStep ["A"] ["A"] none 2000 holdMid = (FrameResult.noHands, holdMid) ∧
    holdMid.holdProgress = 50 ∧
    holdMid.currentHoldLetter = "A" :=
  ⟨rfl, rfl, rfl⟩

/-- C9 (amended): whenever the per-frame confidence is below
MIN_CONFIDENCE the machine resets to Idle with hold progress 0 and an
unchanged sentence; a whole window of such frames never commits and
ends with progress 0 and no held letter. A no-hands frame, by
contrast, leaves the hold state untouched. -/
theorem low_confidence_resets_hold (labels vocab : List String) (s : HoldState)
    (frames : List (List ℚ × ℚ)) (probs : List ℚ) (now : ℚ)
    (hne : probs ≠ [])
    (hlow : (getTopPrediction labels vocab probs).2 < MIN_CONFIDENCE)
    (hframes : ∀ f ∈ frames, f.1 ≠ [] ∧
      (getTopPrediction labels vocab f.1).2 < MIN_CONFIDENCE) :
    detectStep labels vocab (some probs) now s =
      (FrameResult.shown "—" (getTopPrediction labels vocab probs).2, resetLetterHold s) ∧
    (resetLetterHold s).currentHoldLetter = "" ∧
    (resetLetterHold s).holdProgress = 0 ∧
    (resetLetterHold s).capturedSentence = s.capturedSentence ∧
    (runFrames labels vocab frames s).capturedSentence = s.capturedSentence ∧
    (frames ≠ [] → (runFrames labels vocab frames s).holdProgress = 0 ∧
      (runFrames labels vocab frames s).currentHoldLetter = "") ∧
    (detectStep labels vocab none now s = (FrameResult.noHands, s)) := by
  refine ⟨detectStep_low labels vocab probs now s hne hlow, rfl, rfl, rfl, ?_, ?_, rfl⟩
  · clear hne hlow
    induction frames generalizing s with
    | nil => rfl
    | cons f fs ih =>
      have hf := hframes f (List.mem_cons_self f fs)
      have hrest : ∀ g ∈ fs, g.1 ≠ [] ∧
          (getTopPrediction labels vocab g.1).2 < MIN_CONFIDENCE :=
        fun g hg => hframes g (List.mem_cons_of_mem f hg)
      have hstep : runFrames labels vocab (f :: fs) s
          = runFrames labels vocab fs (resetLetterHold s) := by
        show runFrames labels vocab fs (detectStep labels vocab (some f.1) f.2 s).2 = _
        rw [detectStep_low labels vocab f.1 f.2 s hf.1 hf.2]
      rw [hstep, ih (resetLetterHold s) hrest]
      rfl
  · clear hne hlow
    intro hnonempty
    induction frames generalizing s with
    | nil => exact absurd rfl hnonempty
    | cons f fs ih =>
      have hf := hframes f (List.mem_cons_self f fs)
      have hrest : ∀ g ∈ fs, g.1 ≠ [] ∧
          (getTopPrediction labels vocab g.1).2 < MIN_CONFIDENCE :=
        fun g hg => hframes g (List.mem_cons_of_mem f hg)
      have hstep : runFrames labels vocab (f :: fs) s
          = runFrames labels vocab fs (resetLetterHold s) := by
        show runFrames labels vocab fs (detectStep labels vocab (some f.1) f.2 s).2 = _
        rw [detectStep_low labels vocab f.1 f.2 s hf.1 hf.2]
      rw [hstep]
      cases fs with
      | nil => exact ⟨rfl, rfl⟩
      | cons g gs => exact ih (resetLetterHold s) hrest (by simp)

/-- Witness for the amended C9: one frame of probabilities
[2/5, 1/5] (top score 2/5, below the 1/2 threshold) at time 100 from
the mid-hold state resets progress to 0 and commits nothing. -/
theorem low_confidence_resets_hold_witness :
    (runFrames ["A"] [] [([2/5, 1/5], 100)] holdMid).holdProgress = 0 ∧
    (runFrames ["A"] [] [([2/5, 1/5], 100)] holdMid).capturedSentence =
      holdMid.capturedSentence := by
  have hlow : (getTopPrediction ["A"] [] [2/5, 1/5]).2 < MIN_CONFIDENCE := by
    norm_num [getTopPrediction, getTopBest, topScan, MIN_CONFIDENCE]
  have h := low_confidence_resets_hold ["A"] [] holdMid [([2/5, 1/5], 100)] [2/5, 1/5] 100
    (by simp) hlow
    (by
      intro f hf
      simp only [List.mem_singleton] at hf
      subst hf
      exact ⟨by simp, hlow⟩)
  exact ⟨(h.2.2.2.2.2.1 (by simp)).1, h.2.2.2.2.1⟩

/-! ### Lemmas: feature extraction -/

/-- Inversion: a non-null extraction result is the core applied to the
converted keypoints. -/
theorem extractEngineerFeatures_eq_some (kps : List HandKeypoint) (w h : Option ℝ)
    (f : EngineerFeatures) (hf : extractEngineerFeatures kps w h = some f) :
    f = extractEngineerFeaturesCore fun i => toLandmark w h (keypointAt kps i) := by
  unfold extractEngineerFeatures at hf
  split at hf
  · exact (Option.some.inj hf).symm
  · exact absurd hf (by simp)

/-- The normalized landmark at index 0 is the zero triple: it is the
wrist centered on itself, whether or not hand-size scaling runs. -/
theorem normalizedOf_zero (g : Fin 21 → Landmark) : normalizedOf g 0 = (0, 0, 0) := by
  unfold normalizedOf
  by_cases hs : handSizeOf g > 0
  · rw [if_pos hs]
    show ((centeredOf g 0).1 / handSizeOf g, (centeredOf g 0).2.1 / handSizeOf g,
      (centeredOf g 0).2.2 / handSizeOf g) = (0, 0, 0)
    have h0 : centeredOf g 0 = (0, 0, 0) := by
      show vsub (g 0) (g 0) = (0, 0, 0)
      unfold vsub
      simp
    rw [h0]
    simp
  · rw [if_neg hs]
    show vsub (g 0) (g 0) = (0, 0, 0)
    unfold vsub
    simp

/-- With hand size 0 the scaling step is skipped entirely. -/
theorem normalizedOf_of_handSize_zero (g : Fin 21 → Landmark)
    (hsz : handSizeOf g = 0) : normalizedOf g = centeredOf g := by
  unfold normalizedOf
  rw [hsz]
  simp

/-- The hand size of the all-zero hand is 0. -/
theorem handSizeOf_g0 : handSizeOf g0 = 0 := by
  show Real.sqrt ((0 - 0) * (0 - 0) + (0 - 0) * (0 - 0) + (0 - 0) * (0 - 0)) = 0
  rw [show ((0:ℝ) - 0) * (0 - 0) + (0 - 0) * (0 - 0) + (0 - 0) * (0 - 0) = 0 by norm_num]
  exact Real.sqrt_zero

/-- The hand size of kps9 is 2: the wrist sits at the origin and
landmark 9 at (2, 0, 0). -/
theorem handSizeOf_g9 : handSizeOf g9 = 2 := by
  show Real.sqrt ((0 - 2) * (0 - 2) + (0 - 0) * (0 - 0) + (0 - 0) * (0 - 0)) = 2
  rw [show ((0:ℝ) - 2) * (0 - 2) + (0 - 0) * (0 - 0) + (0 - 0) * (0 - 0) = 2 ^ 2 by norm_num]
  exact Real.sqrt_sq (by norm_num)

/-- Every raw angle of the angle-feature list is a calculateAngle
value at some landmark triple. -/
theorem mem_anglesListOf (g : Fin 21 → Landmark) (x : ℝ) (hx : x ∈ anglesListOf g) :
    ∃ p1 p2 p3, x = calculateAngle p1 p2 p3 := by
  unfold anglesListOf at hx
  rcases List.mem_append.mp hx with hx | hx
  · rcases List.mem_flatten.mp hx with ⟨l, hl, hxl⟩
    rcases List.mem_map.mp hl with ⟨q, hq, rfl⟩
    simp only [List.mem_cons, List.not_mem_nil, or_false] at hxl
    rcases hxl with rfl | rfl | rfl
    · exact ⟨_, _, _, rfl⟩
    · exact ⟨_, _, _, rfl⟩
    · exact ⟨_, _, _, rfl⟩
  · rcases List.mem_map.mp hx with ⟨pq, hpq, rfl⟩
    exact ⟨_, _, _, rfl⟩

/-- Bounds on the raw angle: arccos lands in [0, pi], so degrees land
in [0, 180]. -/
theorem calculateAngle_bounds (p1 p2 p3 : Landmark) :
    0 ≤ calculateAngle p1 p2 p3 ∧ calculateAngle p1 p2 p3 ≤ 180 := by
  simp only [calculateAngle]
  constructor
  · exact mul_nonneg (Real.arccos_nonneg _) (by positivity)
  · calc Real.arccos _ * (180 / Real.pi) ≤ Real.pi * (180 / Real.pi) :=
      mul_le_mul_of_nonneg_right (Real.arccos_le_pi _) (by positivity)
    _ = 180 := by
      rw [mul_comm]
      exact div_mul_cancel₀ 180 Real.pi_ne_zero

/-! ### Claim C1 -/

/-- C1: on exactly 21 keypoints the extraction succeeds and the
combined vector has length exactly 121, being the concatenation of the
five segments of lengths 63, 26, 19, 10, 3, so that indices [0,63)
hold the normalized landmarks, [63,89) the distances, [89,108) the
angles, [108,118) the fingertip y/z positions and [118,121) the palm
normal. -/
theorem extractEngineerFeatures_layout (kps : List HandKeypoint) (w h : Option ℝ)
    (h21 : kps.length = 21) :
    extractEngineerFeatures kps w h
      = some (extractEngineerFeaturesCore fun i => toLandmark w h (keypointAt kps i)) ∧
    ∀ f, extractEngineerFeatures kps w h = some f →
      f.combined.length = 121 ∧
      f.combined = f.normalizedLandmarks ++ (f.distances ++ (f.angles ++
        (f.fingertipPositions ++ f.orientation))) ∧
      f.normalizedLandmarks.length = 63 ∧
      f.distances.length = 26 ∧
      f.angles.length = 19 ∧
      f.fingertipPositions.length = 10 ∧
      f.orientation.length = 3 ∧
      f.combined.take 63 = f.normalizedLandmarks ∧
      (f.combined.drop 63).take 26 = f.distances ∧
      (f.combined.drop 89).take 19 = f.angles ∧
      (f.combined.drop 108).take 10 = f.fingertipPositions ∧
      f.combined.drop 118 = f.orientation := by
  have hsome : extractEngineerFeatures kps w h
      = some (extractEngineerFeaturesCore fun i => toLandmark w h (keypointAt kps i)) := by
    unfold extractEngineerFeatures
    rw [if_pos h21]
  refine ⟨hsome, ?_⟩
  intro f hf
  obtain rfl := extractEngineerFeatures_eq_some kps w h f hf
  exact ⟨rfl, rfl, rfl, rfl, rfl, rfl, rfl, rfl, rfl, rfl, rfl, rfl⟩

/-- Witness for C1 at the all-zero 21-keypoint input. -/
theorem extractEngineerFeatures_layout_witness :
    extractEngineerFeatures kps0 none none = some (extractEngineerFeaturesCore g0) ∧
    (extractEngineerFeaturesCore g0).combined.length = 121 ∧
    (extractEngineerFeaturesCore g0).combined.take 63
      = (extractEngineerFeaturesCore g0).normalizedLandmarks ∧
    (extractEngineerFeaturesCore g0).combined.drop 118
      = (extractEngineerFeaturesCore g0).orientation := by
  have h := extractEngineerFeatures_layout kps0 none none (by simp [kps0])
  have hp := h.2 (extractEngineerFeaturesCore g0) h.1
  exact ⟨h.1, hp.1, hp.2.2.2.2.2.2.2.1, hp.2.2.2.2.2.2.2.2.2.2.2⟩

/-! ### Claim C7 -/

/-- C7: the first three entries of the engineered landmark segment are
exactly 0 for every input, and when the hand size (the distance from
converted landmark 0 to converted landmark 9) is zero the scaling step
is the identity: the 63-entry segment equals the plain wrist-centered
coordinates, no division performed. -/
theorem normalized_landmark_zero (kps : List HandKeypoint) (w h : Option ℝ)
    (f : EngineerFeatures) (hf : extractEngineerFeatures kps w h = some f) :
    f.normalizedLandmarks.take 3 = [0, 0, 0] ∧
    (handSizeOf (fun i => toLandmark w h (keypointAt kps i)) = 0 →
      f.normalizedLandmarks = wristCenteredListOf fun i => toLandmark w h (keypointAt kps i)) := by
  obtain rfl := extractEngineerFeatures_eq_some kps w h f hf
  constructor
  · have h3 : (extractEngineerFeaturesCore
          fun i => toLandmark w h (keypointAt kps i)).normalizedLandmarks.take 3
        = [(normalizedOf (fun i => toLandmark w h (keypointAt kps i)) 0).1,
           (normalizedOf (fun i => toLandmark w h (keypointAt kps i)) 0).2.1,
           (normalizedOf (fun i => toLandmark w h (keypointAt kps i)) 0).2.2] := rfl
    rw [h3, normalizedOf_zero]
  · intro hsz
    show normalizedLandmarksOf _ = wristCenteredListOf _
    unfold normalizedLandmarksOf wristCenteredListOf
    rw [normalizedOf_of_handSize_zero _ hsz]

/-- Witness for C7 at the all-zero input, whose hand size is 0. -/
theorem normalized_landmark_zero_witness :
    (extractEngineerFeaturesCore g0).normalizedLandmarks.take 3 = [0, 0, 0] ∧
    (extractEngineerFeaturesCore g0).normalizedLandmarks = wristCenteredListOf g0 := by
  have h := normalized_landmark_zero kps0 none none (extractEngineerFeaturesCore g0) rfl
  exact ⟨h.1, h.2 handSizeOf_g0⟩

/-! ### Claim C8 -/

/-- C8: every entry of the 19-entry angle segment lies in [0, 1]: each
is arccos of the cosine — computed as dot over (product of magnitudes
plus 1e-8), clamped to [-1, 1] — converted to degrees and divided by
180; and the guarded denominator is strictly positive for all triples,
including degenerate zero-length vectors, so no division by zero can
occur. -/
theorem angle_features_bounded (kps : List HandKeypoint) (w h : Option ℝ)
    (f : EngineerFeatures) (hf : extractEngineerFeatures kps w h = some f) :
    f.angles.length = 19 ∧
    (∀ a ∈ f.angles, 0 ≤ a ∧ a ≤ 1) ∧
    (∀ p1 p2 p3 : Landmark, 0 < vmag (vsub p1 p2) * vmag (vsub p3 p2) + 1e-8) ∧
    (∀ p1 p2 p3 : Landmark, calculateAngle p1 p2 p3
      = Real.arccos (max (-1) (min 1 (vdot (vsub p1 p2) (vsub p3 p2) /
          (vmag (vsub p1 p2) * vmag (vsub p3 p2) + 1e-8)))) * (180 / Real.pi)) := by
  obtain rfl := extractEngineerFeatures_eq_some kps w h f hf
  refine ⟨rfl, ?_, ?_, fun p1 p2 p3 => rfl⟩
  · intro a ha
    have hmem : a ∈ (anglesListOf fun i => toLandmark w h (keypointAt kps i)).map
        fun x => x / 180 := ha
    rcases List.mem_map.mp hmem with ⟨x, hx, rfl⟩
    obtain ⟨p1, p2, p3, rfl⟩ := mem_anglesListOf _ x hx
    have hb := calculateAngle_bounds p1 p2 p3
    constructor
    · exact div_nonneg hb.1 (by norm_num)
    · rw [div_le_one (by norm_num : (0:ℝ) < 180)]
      exact hb.2
  · intro p1 p2 p3
    have h1 : (0:ℝ) < 1e-8 := by norm_num
    have h2 : 0 ≤ vmag (vsub p1 p2) * vmag (vsub p3 p2) :=
      mul_nonneg (Real.sqrt_nonneg _) (Real.sqrt_nonneg _)
    linarith

/-- Witness for C8 at the all-zero input, whose joint vectors are all
degenerate (zero length). -/
theorem angle_features_bounded_witness :
    (extractEngineerFeaturesCore g0).angles.length = 19 ∧
    0 < vmag (vsub (0, 0, 0) (0, 0, 0)) * vmag (vsub (0, 0, 0) (0, 0, 0)) + 1e-8 := by
  have h := angle_features_bounded kps0 none none (extractEngineerFeaturesCore g0) rfl
  exact ⟨h.1, h.2.2.1 (0, 0, 0) (0, 0, 0) (0, 0, 0)⟩

/-! ### Claim C10 -/

/-- C10: the fingertip-position segment duplicates entries of the
landmark segment: for each fingertip t among 4, 8, 12, 16, 20 (the
i-th), combined[108 + 2i] equals combined[3t + 1] (normalized y) and
combined[109 + 2i] equals combined[3t + 2] (normalized z). -/
theorem fingertip_segment_duplicates (kps : List HandKeypoint) (w h : Option ℝ)
    (f : EngineerFeatures) (hf : extractEngineerFeatures kps w h = some f) :
    (f.combined.getD 108 0 = f.combined.getD 13 0 ∧
     f.combined.getD 109 0 = f.combined.getD 14 0) ∧
    (f.combined.getD 110 0 = f.combined.getD 25 0 ∧
     f.combined.getD 111 0 = f.combined.getD 26 0) ∧
    (f.combined.getD 112 0 = f.combined.getD 37 0 ∧
     f.combined.getD 113 0 = f.combined.getD 38 0) ∧
    (f.combined.getD 114 0 = f.combined.getD 49 0 ∧
     f.combined.getD 115 0 = f.combined.getD 50 0) ∧
    (f.combined.getD 116 0 = f.combined.getD 61 0 ∧
     f.combined.getD 117 0 = f.combined.getD 62 0) := by
  obtain rfl := extractEngineerFeatures_eq_some kps w h f hf
  exact ⟨⟨rfl, rfl⟩, ⟨rfl, rfl⟩, ⟨rfl, rfl⟩, ⟨rfl, rfl⟩, ⟨rfl, rfl⟩⟩

/-- Witness for C10 at the all-zero input: thumb-tip y and pinky-tip z
duplications. -/
theorem fingertip_segment_duplicates_witness :
    (extractEngineerFeaturesCore g0).combined.getD 108 0
      = (extractEngineerFeaturesCore g0).combined.getD 13 0 ∧
    (extractEngineerFeaturesCore g0).combined.getD 117 0
      = (extractEngineerFeaturesCore g0).combined.getD 62 0 := by
  have h := fingertip_segment_duplicates kps0 none none (extractEngineerFeaturesCore g0) rfl
  exact ⟨h.1.1, h.2.2.2.2.2⟩

/-! ### Claim C6 -/

/-- C6 counterexample: on kps9 (hand size 2) the BasicFeatureVector
differs from the engineered normalized-landmark segment: entry 27 (the
x of landmark 9) is 2 in the basic vector but 1 = 2/2 in the scaled
engineered segment. -/
theorem basic_differs_from_engineered_segment :
    extractNormalizedLandmarks kps9
      ≠ (extractEngineerFeatures kps9 none none).map EngineerFeatures.normalizedLandmarks := by
  have hL : extractNormalizedLandmarks kps9 = some (wristCenteredListOf g9) := rfl
  have hR : (extractEngineerFeatures kps9 none none).map EngineerFeatures.normalizedLandmarks
      = some (normalizedLandmarksOf g9) := rfl
  rw [hL, hR]
  intro hcontra
  have hinj := Option.some.inj hcontra
  have h27 : (wristCenteredListOf g9).getD 27 0 = (normalizedLandmarksOf g9).getD 27 0 := by
    rw [hinj]
  have hL27 : (wristCenteredListOf g9).getD 27 0 = 2 - 0 := rfl
  have hR27 : (normalizedLandmarksOf g9).getD 27 0 = (2 - 0) / 2 := by
    show (normalizedOf g9 9).1 = (2 - 0) / 2
    unfold normalizedOf
    rw [handSizeOf_g9, if_pos (by norm_num : (2:ℝ) > 0)]
    rfl
  rw [hL27, hR27] at h27
  norm_num at h27

/-- C6 (amended): extractNormalizedLandmarks computes plain
wrist-centered coordinates with no hand-size scaling and no
image-dimension conversion, so it equals the engineered
normalized-landmark segment exactly when no image dimensions are
passed and the scaling is trivial — hand size 0 (scaling skipped) or
hand size 1; for other hand sizes, such as 2 in the counterexample,
the two differ. -/
theorem basic_eq_segment_when_scaling_trivial (kps : List HandKeypoint)
    (h21 : kps.length = 21)
    (hsize : handSizeOf (fun i => toLandmark none none (keypointAt kps i)) = 0 ∨
             handSizeOf (fun i => toLandmark none none (keypointAt kps i)) = 1) :
    extractNormalizedLandmarks kps
      = (extractEngineerFeatures kps none none).map EngineerFeatures.normalizedLandmarks := by
  have hextract : extractEngineerFeatures kps none none
      = some (extractEngineerFeaturesCore fun i => toLandmark none none (keypointAt kps i)) := by
    unfold extractEngineerFeatures
    rw [if_pos h21]
  have hbasic : extractNormalizedLandmarks kps
      = some (wristCenteredListOf fun i => toLandmark none none (keypointAt kps i)) := by
    unfold extractNormalizedLandmarks
    rw [if_pos h21]
    rfl
  rw [hbasic, hextract]
  show some (wristCenteredListOf fun i => toLandmark none none (keypointAt kps i))
    = some (normalizedLandmarksOf fun i => toLandmark none none (keypointAt kps i))
  have hnz : normalizedOf (fun i => toLandmark none none (keypointAt kps i))
      = centeredOf fun i => toLandmark none none (keypointAt kps i) := by
    rcases hsize with hs | hs
    · exact normalizedOf_of_handSize_zero _ hs
    · unfold normalizedOf
      rw [hs, if_pos (by norm_num : (1:ℝ) > 0)]
      funext i
      show ((centeredOf _ i).1 / 1, (centeredOf _ i).2.1 / 1, (centeredOf _ i).2.2 / 1) = _
      simp [div_one]
  unfold normalizedLandmarksOf wristCenteredListOf
  rw [hnz]

/-- Witness for the amended C6 at the all-zero input (hand size 0). -/
theorem basic_eq_segment_when_scaling_trivial_witness :
    extractNormalizedLandmarks kps0
      = (extractEngineerFeatures kps0 none none).map EngineerFeatures.normalizedLandmarks :=
  basic_eq_segment_when_scaling_trivial kps0 (by simp [kps0]) (Or.inl handSizeOf_g0)

end SLT
